import Mathlib

/-
Verification of the NVD API client (src/src/api/nvd_api.py).

The Python module is shallowly embedded below.  Python exceptions are
modelled with `Except PyErr`; `datetime` values are modelled by the
`DateTime` structure (compared lexicographically, as Python does), and
`datetime` arithmetic in the date-range chunking is modelled on `Int`
timestamps measured in microseconds (the resolution of Python datetimes).
Decoded JSON responses are modelled by the `Json` inductive.  The HTTP
transport is external to the module; functions that consume a response
take the decoded body as an argument, and `requests.head` inside
`Cve.get_url` is modelled by an oracle `head_ok` together with an explicit
log of the URLs actually requested.
-/

set_option maxHeartbeats 1000000

/-- Python exception kinds raised by the embedded code. -/
inductive PyErr where
  | apiError (msg : String)
  | attributeError (msg : String)
  | keyError (msg : String)
  | typeError (msg : String)
  | valueError (msg : String)
deriving DecidableEq, Repr

/-- Untyped Python values, as far as the module compares them: the id/url
tuples produced by `get_cve_id_list` and the strings tested against them.
Python equality between a `str` and a `tuple` is `False`, which here is
constructor disjointness. -/
inductive PyVal where
  | str (s : String)
  | none
  | tuple2 (a b : PyVal)
deriving DecidableEq, Repr

/-- A decoded JSON value (`response.json()`), restricted to the shapes the
upstream schema uses: strings, integers, arrays and objects. -/
inductive Json where
  | str (s : String)
  | num (n : Int)
  | arr (items : List Json)
  | obj (fields : List (String × Json))

/-- Python `d[key]` on a decoded JSON value: looks the key up when `d` is an
object (KeyError when absent), and raises a TypeError otherwise. -/
def Json.get (j : Json) (key : String) : Except PyErr Json :=
  match j with
  | Json.obj fields =>
    match fields.lookup key with
    | some v => Except.ok v
    | Option.none => Except.error (PyErr.keyError key)
  | _ => Except.error (PyErr.typeError "value is not subscriptable by a string key")

/-- A Python `datetime` as far as the module builds one: the five fields that
the upstream format string `%Y-%m-%dT%H:%MZ` extracts. -/
structure DateTime where
  year : Nat
  month : Nat
  day : Nat
  hour : Nat
  minute : Nat
deriving DecidableEq, Repr

/-- Python `<` on datetimes: lexicographic on the fields. -/
def DateTime.ltb (a b : DateTime) : Bool :=
  if a.year ≠ b.year then a.year < b.year
  else if a.month ≠ b.month then a.month < b.month
  else if a.day ≠ b.day then a.day < b.day
  else if a.hour ≠ b.hour then a.hour < b.hour
  else a.minute < b.minute

/-- Value of a decimal digit character. -/
def digitVal (c : Char) : Nat := c.toNat - 48

/-- Greedily read at most `width` leading decimal digits, like the regexes
Python strptime builds for numeric directives. -/
def readDigits : Nat → List Char → List Char × List Char
  | 0, cs => ([], cs)
  | _ + 1, [] => ([], [])
  | n + 1, c :: cs =>
    if c.isDigit then
      let p := readDigits n cs
      (c :: p.1, p.2)
    else ([], c :: cs)

/-- Numeric value of a digit string. -/
def digitsToNat (ds : List Char) : Nat := ds.foldl (fun a c => 10 * a + digitVal c) 0

/-- Read a numeric field of at most `width` digits (at least one), as the
CPython strptime regexes for the two-digit directives do: they accept one or
two digits, and any leftover digit fails the following literal, which the
range validation below reproduces. -/
def readNum (width : Nat) (cs : List Char) : Option (Nat × List Char) :=
  let p := readDigits width cs
  if p.1.isEmpty then Option.none else some (digitsToNat p.1, p.2)

/-- Read the year field: CPython strptime compiles `%Y` as exactly four
digits. -/
def readNum4 (cs : List Char) : Option (Nat × List Char) :=
  let p := readDigits 4 cs
  if p.1.length = 4 then some (digitsToNat p.1, p.2) else Option.none

/-- Consume one expected literal character. -/
def expectChar (c : Char) (cs : List Char) : Option (List Char) :=
  match cs with
  | [] => Option.none
  | d :: rest => if d = c then some rest else Option.none

/-- Gregorian leap year, as Python's calendar uses it. -/
def isLeapYear (y : Nat) : Bool := (y % 4 = 0 && y % 100 ≠ 0) || y % 400 = 0

/-- Number of days in a month, as Python's datetime validates it. -/
def daysInMonth (y m : Nat) : Nat :=
  if m = 2 then (if isLeapYear y then 29 else 28)
  else if m = 4 ∨ m = 6 ∨ m = 9 ∨ m = 11 then 30 else 31

/-- Parse a character list against the fixed format `%Y-%m-%dT%H:%MZ`,
validating field ranges the way `datetime.strptime` does and rejecting
unconverted trailing data. -/
def parseHM (cs : List Char) : Option DateTime := do
  let (y, cs) ← readNum4 cs
  let cs ← expectChar '-' cs
  let (mo, cs) ← readNum 2 cs
  let cs ← expectChar '-' cs
  let (d, cs) ← readNum 2 cs
  let cs ← expectChar 'T' cs
  let (h, cs) ← readNum 2 cs
  let cs ← expectChar ':' cs
  let (mi, cs) ← readNum 2 cs
  let cs ← expectChar 'Z' cs
  if cs.isEmpty ∧ 1 ≤ y ∧ 1 ≤ mo ∧ mo ≤ 12 ∧ 1 ≤ d ∧ d ≤ daysInMonth y mo ∧ h ≤ 23 ∧ mi ≤ 59 then
    some ⟨y, mo, d, h, mi⟩
  else Option.none

/-- Python `datetime.strptime(s, "%Y-%m-%dT%H:%MZ")`: a `ValueError` when the
string does not match the format. -/
def strptimeHM (s : String) : Except PyErr DateTime :=
  match parseHM s.toList with
  | some d => Except.ok d
  | Option.none => Except.error (PyErr.valueError ("time data " ++ s ++ " does not match format"))

/-- `datetime.strptime` applied to a decoded JSON field: a non-string argument
raises a TypeError in Python. -/
def strptimeField (v : Json) : Except PyErr DateTime :=
  match v with
  | Json.str s => strptimeHM s
  | _ => Except.error (PyErr.typeError "strptime argument 1 must be str")

/-- Python `timedelta(days=120)` in microseconds: 120 * 86400 * 1000000. -/
def max_delta : Int := 10368000000000

/-- The date-range chunking loop of `NvdApi.search_by_name_and_date`:

    my_delta = now - start_date
    curr_date = start_date
    while my_delta > max_delta:
        ranges.append((curr_date, curr_date + max_delta))
        curr_date += max_delta
        my_delta = now - curr_date
    ranges.append((curr_date, now))

Timestamps are microsecond counts. -/
def date_ranges (now curr_date : Int) : List (Int × Int) :=
  if max_delta < now - curr_date then
    (curr_date, curr_date + max_delta) :: date_ranges now (curr_date + max_delta)
  else
    [(curr_date, now)]
termination_by (now - curr_date).toNat
decreasing_by
  simp only [max_delta] at *
  omega

/-- The fixed detail-page URL prefix `NvdApi.DETAIL_VIEW_PREFIX` of the source
(renamed here). -/
def NvdApi.DETAIL_VIEW_BASE : String := "https://nvd.nist.gov/vuln/detail/"

/-- The `Cve` class: one CVE entry.  `severity` keeps the raw JSON value the
parser stored (the source stores it without conversion). -/
structure Cve where
  cve_id : String
  published_date : DateTime
  last_modified_date : DateTime
  severity : Json

/-- `Cve.get_url`: assembles the detail URL; when `check_is_up` is set it
issues a `requests.head` call, modelled by the oracle `head_ok`.  The second
component logs the URLs for which a HEAD request was actually performed.
The returned value is `None` (absence) when the check was requested and
failed, and the URL string otherwise. -/
def Cve.get_url (c : Cve) (check_is_up : Bool) (head_ok : String → Bool) : PyVal × List String :=
  let url := NvdApi.DETAIL_VIEW_BASE ++ c.cve_id
  if check_is_up then
    if head_ok url then (PyVal.str url, [url]) else (PyVal.none, [url])
  else (PyVal.str url, [])

/-- Python `str` is required for the `ID` metadata field.  The upstream schema
fixes `ID : string`; the model rejects non-string IDs here so that `cve_id`
can be a `String`. -/
def pyStrOfId (v : Json) : Except PyErr String :=
  match v with
  | Json.str s => Except.ok s
  | _ => Except.error (PyErr.typeError "model: ID is required to be a JSON string")

/-- `Cve.result_to_cve`: parses one CVE item, in the source's evaluation
order (lastModifiedDate, publishedDate, ID, impact).  An impact object equal
to `{}` yields severity `"UNKNOWN"`; any other impact value is indexed with
`['baseMetricV2']['severity']`. -/
def Cve.result_to_cve (result_json : Json) : Except PyErr Cve := do
  let mod_date ← strptimeField (← result_json.get "lastModifiedDate")
  let pub_date ← strptimeField (← result_json.get "publishedDate")
  let cve_id ← pyStrOfId (← (← (← result_json.get "cve").get "CVE_data_meta").get "ID")
  let impact ← result_json.get "impact"
  let severity ←
    match impact with
    | Json.obj [] => Except.ok (Json.str "UNKNOWN")
    | _ => do (← impact.get "baseMetricV2").get "severity"
  Except.ok ⟨cve_id, pub_date, mod_date, severity⟩

/-- State of the `num_results` attribute of a `CveResultList`: the
list-constructor branch of `__init__` never assigns it (`unset`), the JSON
branch first sets it to Python `None` and then `_parse_json` overwrites it
with the raw `totalResults` value. -/
inductive NumResults where
  | unset
  | pyNone
  | val (j : Json)

/-- The `CveResultList` class: the ordered record list plus the state of its
`num_results` attribute. -/
structure CveResultList where
  results : List Cve
  num_results : NumResults

/-- The list branch of `CveResultList.__init__`: stores the given list and
leaves `num_results` unassigned. -/
def CveResultList.fromList (json_result : List Cve) : CveResultList :=
  ⟨json_result, NumResults.unset⟩

/-- `CveResultList._parse_json`: reads `totalResults`, then parses every item
of `result.CVE_Items` via `Cve.result_to_cve`, appending in arrival order;
any item error aborts the whole construction.  `CVE_Items` outside the
schema's array type is rejected (Python would iterate any iterable). -/
def CveResultList._parse_json (json_result : Json) : Except PyErr (List Cve × NumResults) := do
  let tr ← json_result.get "totalResults"
  let res ← json_result.get "result"
  let items ← res.get "CVE_Items"
  match items with
  | Json.arr itemList => do
    let cves ← itemList.foldlM (fun acc it => do
      let c ← Cve.result_to_cve it
      pure (acc ++ [c])) ([] : List Cve)
    pure (cves, NumResults.val tr)
  | _ => Except.error (PyErr.typeError "CVE_Items is not a JSON array")

/-- The non-list branch of `CveResultList.__init__`: `None` gives the empty
list with `num_results = None`; a JSON payload is parsed by `_parse_json`
(FFI errors propagate, aborting construction). -/
def CveResultList.fromJson (json_result : Option Json) : Except PyErr CveResultList :=
  match json_result with
  | Option.none => Except.ok ⟨[], NumResults.pyNone⟩
  | some j => do
    let p ← CveResultList._parse_json j
    pure ⟨p.1, p.2⟩

/-- Python `max(l, key=(lambda x: x.published_date))`: a ValueError on the
empty list, otherwise the left fold that replaces the current maximum only
on a strictly larger key (ties keep the first). -/
def py_max_by_date : List Cve → Except PyErr Cve
  | [] => Except.error (PyErr.valueError "max() arg is an empty sequence")
  | x :: xs =>
    Except.ok (xs.foldl (fun acc c =>
      if DateTime.ltb acc.published_date c.published_date then c else acc) x)

/-- `CveResultList.get_latest`.  The source guards with
`if self.results is not None:`, but `results` is always a list (never Python
`None`), so the guard is always taken and the implicit `return None` branch is
unreachable; the body is `max` over the stored records. -/
def CveResultList.get_latest (l : CveResultList) : Except PyErr Cve :=
  py_max_by_date l.results

/-- The `(cve_id, None)` tuples produced by `get_cve_id_list` when
`make_urls` is false. -/
def idNoneTuples (l : List Cve) : List PyVal :=
  l.map (fun c => PyVal.tuple2 (PyVal.str c.cve_id) PyVal.none)

/-- `CveResultList.get_cve_id_list`: a list of `(cve_id, url-or-None)` tuples.
With `make_urls` set, each record's `get_url()` is called with its default
`check_is_up=False`; the second component collects the HEAD requests those
calls performed. -/
def CveResultList.get_cve_id_list (l : CveResultList) (make_urls : Bool)
    (head_ok : String → Bool) : List PyVal × List String :=
  if make_urls then
    (l.results.map (fun c => PyVal.tuple2 (PyVal.str c.cve_id) (c.get_url false head_ok).1),
     (l.results.map (fun c => (c.get_url false head_ok).2)).flatten)
  else (idNoneTuples l.results, [])

/-- The severity table of `CveResultList._severity_ranking`. -/
def severities : List (String × Int) :=
  [("UNKNOWN", -1), ("LOW", 0), ("MEDIUM", 1), ("HIGH", 2), ("CRITICAL", 3)]

/-- `CveResultList._severity_ranking`: Python `severities[cve.severity]`.
A stored string outside the table (and any non-string severity value) raises:
a missing or integer key is a KeyError, an unhashable dict or list key a
TypeError. -/
def CveResultList._severity_ranking (cve : Cve) : Except PyErr Int :=
  match cve.severity with
  | Json.str s =>
    match severities.lookup s with
    | some r => Except.ok r
    | Option.none => Except.error (PyErr.keyError s)
  | Json.num n => Except.error (PyErr.keyError (toString n))
  | _ => Except.error (PyErr.typeError "unhashable type")

/-- Loop of Python `max(l, key=self._severity_ranking)` after the first
element: `kacc` is the key of the current maximum `acc`; the key of each next
element is computed (exceptions propagate) and the maximum is replaced only on
a strictly larger key. -/
def py_max_by_rank_go (acc : Cve) (kacc : Int) : List Cve → Except PyErr Cve
  | [] => Except.ok acc
  | y :: ys =>
    match CveResultList._severity_ranking y with
    | Except.error e => Except.error e
    | Except.ok ky =>
      if kacc < ky then py_max_by_rank_go y ky ys else py_max_by_rank_go acc kacc ys

/-- Python `max(l, key=self._severity_ranking)`. -/
def py_max_by_rank : List Cve → Except PyErr Cve
  | [] => Except.error (PyErr.valueError "max() arg is an empty sequence")
  | x :: xs =>
    match CveResultList._severity_ranking x with
    | Except.error e => Except.error e
    | Except.ok kx => py_max_by_rank_go x kx xs

/-- `CveResultList.get_max_severity`: Python `None` (here `Option.none`) on an
empty record list, otherwise the severity of the maximum under
`_severity_ranking`. -/
def CveResultList.get_max_severity (l : CveResultList) : Except PyErr (Option Json) :=
  if l.results.isEmpty then Except.ok Option.none
  else (py_max_by_rank l.results).map (fun c => some c.severity)

/-- The loop of `CveResultList.add`.  `merged_results` aliases
`first.results`, so the membership test `o.cve_id not in
first.get_cve_id_list()` is recomputed against the grown list on every
iteration; the tested list holds `(cve_id, None)` tuples, and the tested
value is the plain id string. -/
def addMerged : List Cve → List Cve → List Cve
  | merged, [] => merged
  | merged, o :: rest =>
    if PyVal.str o.cve_id ∈ idNoneTuples merged then addMerged merged rest
    else addMerged (merged ++ [o]) rest

/-- `CveResultList.add` (static): the returned object is built from the merged
list through the list branch of `__init__`. -/
def CveResultList.add (first other : CveResultList) : CveResultList :=
  CveResultList.fromList (addMerged first.results other.results)

/-- The value of the `first` operand after `CveResultList.add` returns:
`merged_results = first.results` aliases the operand's list, so the appends
performed by the loop mutate `first` in place. -/
def CveResultList.add_post_first (first other : CveResultList) : CveResultList :=
  { first with results := addMerged first.results other.results }

/-- The fold of `search_by_name_and_date`:
`functools.reduce(CveResultList.add, results, CveResultList([]))`. -/
def reduce_add (chunks : List CveResultList) : CveResultList :=
  chunks.foldl CveResultList.add (CveResultList.fromList [])

/-- The body of `NvdApi.search_by_id` after the HTTP call, taking the decoded
response `data`.  The source tests
`('message' in data.keys() and data['message'].contains('Unable to find vuln'))
or data['totalResults'] == 0`; Python strings (and every other decoded JSON
value) have no method `contains`, so whenever a `message` key is present the
conjunction's right operand raises an AttributeError before anything else can
happen. -/
def NvdApi.search_by_id (cve_id : String) (data : Json) : Except PyErr CveResultList :=
  match data with
  | Json.obj fields =>
    if (fields.map Prod.fst).contains "message" then
      Except.error (PyErr.attributeError "str object has no attribute contains")
    else
      match fields.lookup "totalResults" with
      | Option.none => Except.error (PyErr.keyError "totalResults")
      | some tr =>
        match tr with
        | Json.num n =>
          if n = 0 then
            Except.error (PyErr.apiError
              ("No data for cve with id " ++ cve_id ++ ". (resultcount = 0)"))
          else CveResultList.fromJson (some data)
        | _ => CveResultList.fromJson (some data)
  | _ => Except.error (PyErr.attributeError "object has no attribute keys")

/-- A sample timestamp used by the concrete evaluations below. -/
def dtEx : DateTime := ⟨2020, 1, 1, 0, 0⟩

/-- A sample record with id CVE-1. -/
def cveEx1 : Cve := ⟨"CVE-1", dtEx, dtEx, Json.str "HIGH"⟩

/-- A sample record with id CVE-2. -/
def cveEx2 : Cve := ⟨"CVE-2", dtEx, dtEx, Json.str "LOW"⟩

/-- A CVE item JSON object in the upstream schema, with the given date
strings, identifier and impact object. -/
def mkItem (lm pub id : String) (impact : Json) : Json :=
  Json.obj [("cve", Json.obj [("CVE_data_meta", Json.obj [("ID", Json.str id)])]),
            ("publishedDate", Json.str pub),
            ("lastModifiedDate", Json.str lm),
            ("impact", impact)]

/-- A CVE item with valid dates and identifier but no impact key at all. -/
def itemNoImpact : Json :=
  Json.obj [("cve", Json.obj [("CVE_data_meta", Json.obj [("ID", Json.str "CVE-2020-9999")])]),
            ("publishedDate", Json.str "2020-01-02T03:04Z"),
            ("lastModifiedDate", Json.str "2020-01-05T06:07Z")]

/-- Severity rank as a total function, used only to state properties:
defaults to -2 (below every table entry) where `_severity_ranking` raises. -/
def sevRankD (c : Cve) : Int :=
  match CveResultList._severity_ranking c with
  | Except.ok v => v
  | Except.error _ => -2

/-- One comparison step of Python `max` under the severity key. -/
def sevStep (a y : Cve) : Cve := if sevRankD a < sevRankD y then y else a

/-- Sample records for the severity witness: HIGH, CRITICAL, LOW. -/
def cveHigh : Cve := ⟨"CVE-H", dtEx, dtEx, Json.str "HIGH"⟩

/-- See `cveHigh`. -/
def cveCrit : Cve := ⟨"CVE-C", dtEx, dtEx, Json.str "CRITICAL"⟩

/-- See `cveHigh`. -/
def cveLow : Cve := ⟨"CVE-L", dtEx, dtEx, Json.str "LOW"⟩

theorem date_ranges_of_le (now curr : Int) (h : now - curr ≤ max_delta) :
    date_ranges now curr = [(curr, now)] := by
  conv_lhs => unfold date_ranges
  rw [if_neg (by omega)]

theorem date_ranges_of_gt (now curr : Int) (h : max_delta < now - curr) :
    date_ranges now curr = (curr, curr + max_delta) :: date_ranges now (curr + max_delta) := by
  conv_lhs => unfold date_ranges
  rw [if_pos h]

theorem date_ranges_head (now curr : Int) :
    ∃ e rest, date_ranges now curr = (curr, e) :: rest := by
  unfold date_ranges
  split
  · exact ⟨curr + max_delta, _, rfl⟩
  · exact ⟨now, [], rfl⟩

theorem date_ranges_ne_nil (now curr : Int) : date_ranges now curr ≠ [] := by
  obtain ⟨e, rest, h⟩ := date_ranges_head now curr
  simp [h]

theorem date_ranges_getLast (now : Int) :
    ∀ (fuel : Nat) (curr : Int), (now - curr).toNat ≤ fuel →
      ∃ t, (date_ranges now curr).getLast? = some (t, now) := by
  intro fuel
  induction fuel with
  | zero =>
    intro curr hf
    rw [date_ranges_of_le now curr (by simp only [max_delta]; omega)]
    exact ⟨curr, by simp⟩
  | succ m ih =>
    intro curr hf
    by_cases hgt : max_delta < now - curr
    · rw [date_ranges_of_gt now curr hgt]
      obtain ⟨t, ht⟩ := ih (curr + max_delta) (by simp only [max_delta] at *; omega)
      obtain ⟨e, rest, hshape⟩ := date_ranges_head now (curr + max_delta)
      rw [hshape] at ht
      rw [hshape, List.getLast?_cons_cons]
      exact ⟨t, ht⟩
    · rw [date_ranges_of_le now curr (by omega)]
      exact ⟨curr, by simp⟩

theorem date_ranges_chain (now : Int) :
    ∀ (fuel : Nat) (curr : Int), (now - curr).toNat ≤ fuel →
      List.Chain' (fun p q : Int × Int => p.2 = q.1) (date_ranges now curr) := by
  intro fuel
  induction fuel with
  | zero =>
    intro curr hf
    rw [date_ranges_of_le now curr (by simp only [max_delta]; omega)]
    exact List.chain'_singleton _
  | succ m ih =>
    intro curr hf
    by_cases hgt : max_delta < now - curr
    · obtain ⟨e, rest, hshape⟩ := date_ranges_head now (curr + max_delta)
      rw [date_ranges_of_gt now curr hgt, hshape, List.chain'_cons]
      refine ⟨rfl, ?_⟩
      rw [← hshape]
      exact ih (curr + max_delta) (by simp only [max_delta] at *; omega)
    · rw [date_ranges_of_le now curr (by omega)]
      exact List.chain'_singleton _

theorem date_ranges_mem (now : Int) :
    ∀ (fuel : Nat) (curr : Int), (now - curr).toNat ≤ fuel → curr < now →
      ∀ p ∈ date_ranges now curr, 0 < p.2 - p.1 ∧ p.2 - p.1 ≤ max_delta := by
  intro fuel
  induction fuel with
  | zero =>
    intro curr hf hlt
    exfalso
    omega
  | succ m ih =>
    intro curr hf hlt p hp
    by_cases hgt : max_delta < now - curr
    · rw [date_ranges_of_gt now curr hgt] at hp
      rcases List.mem_cons.mp hp with h | h
      · subst h
        show 0 < (curr + max_delta) - curr ∧ (curr + max_delta) - curr ≤ max_delta
        simp only [max_delta]
        omega
      · exact ih (curr + max_delta) (by simp only [max_delta] at *; omega)
          (by simp only [max_delta] at *; omega) p h
    · rw [date_ranges_of_le now curr (by omega)] at hp
      rcases List.mem_cons.mp hp with h | h
      · subst h
        show 0 < now - curr ∧ now - curr ≤ max_delta
        omega
      · simp at h

theorem date_ranges_get (now : Int) :
    ∀ (fuel : Nat) (curr : Int), (now - curr).toNat ≤ fuel →
      ∀ (k : Nat) (p : Int × Int), (date_ranges now curr)[k]? = some p →
        p.1 = curr + k * max_delta ∧
        (k + 1 < (date_ranges now curr).length → p.2 = curr + (k + 1) * max_delta) := by
  intro fuel
  induction fuel with
  | zero =>
    intro curr hf k p hp
    rw [date_ranges_of_le now curr (by simp only [max_delta]; omega)] at hp ⊢
    match k with
    | 0 =>
      simp only [List.getElem?_cons_zero, Option.some.injEq] at hp
      subst hp
      refine ⟨by simp, ?_⟩
      intro h
      simp at h
    | Nat.succ k => simp at hp
  | succ m ih =>
    intro curr hf k p hp
    by_cases hgt : max_delta < now - curr
    · rw [date_ranges_of_gt now curr hgt] at hp ⊢
      match k with
      | 0 =>
        simp only [List.getElem?_cons_zero, Option.some.injEq] at hp
        subst hp
        refine ⟨by simp, ?_⟩
        intro _
        show curr + max_delta = curr + ((0 : Nat) + 1) * max_delta
        push_cast
        ring
      | Nat.succ k =>
        have hp' : (date_ranges now (curr + max_delta))[k]? = some p := by
          simpa using hp
        obtain ⟨ihfst, ihsnd⟩ :=
          ih (curr + max_delta) (by simp only [max_delta] at *; omega) k p hp'
        constructor
        · rw [ihfst]
          push_cast
          ring
        · intro h
          have h' : k + 1 < (date_ranges now (curr + max_delta)).length := by
            rw [List.length_cons] at h
            omega
          rw [ihsnd h']
          push_cast
          ring
    · rw [date_ranges_of_le now curr (by omega)] at hp ⊢
      match k with
      | 0 =>
        simp only [List.getElem?_cons_zero, Option.some.injEq] at hp
        subst hp
        refine ⟨by simp, ?_⟩
        intro h
        simp at h
      | Nat.succ k => simp at hp

theorem date_ranges_example :
    date_ranges (max_delta + 1) 0 = [(0, max_delta), (max_delta, max_delta + 1)] := by
  have h1 : date_ranges (max_delta + 1) 0 =
      (0, 0 + max_delta) :: date_ranges (max_delta + 1) (0 + max_delta) :=
    date_ranges_of_gt _ _ (by simp only [max_delta]; omega)
  have h2 : date_ranges (max_delta + 1) (0 + max_delta) = [(0 + max_delta, max_delta + 1)] :=
    date_ranges_of_le _ _ (by simp only [max_delta]; omega)
  rw [h1, h2]
  norm_num

/-- C5: for `startDate < now` the chunking of `search_by_name_and_date`
partitions `[startDate, now)` into consecutive sub-intervals — the first
starts at `startDate`, the last ends at `now`, each interval's end is the next
interval's start, and every interval is non-empty and at most 120 days long;
for `startDate >= now` the computed partition is the single interval
`[startDate, now)`. -/
theorem C5_date_range_partition (s n : Int) :
    (s < n →
      (∃ e rest, date_ranges n s = (s, e) :: rest) ∧
      (∃ t, (date_ranges n s).getLast? = some (t, n)) ∧
      List.Chain' (fun p q : Int × Int => p.2 = q.1) (date_ranges n s) ∧
      (∀ p ∈ date_ranges n s, 0 < p.2 - p.1 ∧ p.2 - p.1 ≤ max_delta)) ∧
    (n ≤ s → date_ranges n s = [(s, n)]) := by
  constructor
  · intro hlt
    exact ⟨date_ranges_head n s, date_ranges_getLast n (n - s).toNat s le_rfl,
      date_ranges_chain n (n - s).toNat s le_rfl, date_ranges_mem n (n - s).toNat s le_rfl hlt⟩
  · intro hle
    exact date_ranges_of_le n s (by simp only [max_delta]; omega)

theorem C5_date_range_partition_witness :
    (∃ e rest, date_ranges (max_delta + 1) 0 = (0, e) :: rest) ∧ date_ranges 0 5 = [(5, 0)] :=
  ⟨((C5_date_range_partition 0 (max_delta + 1)).1 (by simp only [max_delta]; omega)).1,
   (C5_date_range_partition 5 0).2 (by omega)⟩

/-- C9: for `startDate < now`, the k-th sub-interval produced by the chunking
starts exactly at `startDate + k * 120 days`, and every sub-interval except
the final one ends exactly at `startDate + (k + 1) * 120 days`, hence has
length exactly 120 days. -/
theorem C9_chunk_exact_lengths (s n : Int) (_h : s < n) (k : Nat) (p : Int × Int)
    (hp : (date_ranges n s)[k]? = some p) :
    p.1 = s + k * max_delta ∧
    (k + 1 < (date_ranges n s).length → p.2 = s + (k + 1) * max_delta) :=
  date_ranges_get n (n - s).toNat s le_rfl k p hp

theorem C9_chunk_exact_lengths_witness :
    ((0 : Int), max_delta).1 = 0 + ((0 : Nat) : Int) * max_delta ∧
    (0 + 1 < (date_ranges (max_delta + 1) 0).length →
      ((0 : Int), max_delta).2 = 0 + (((0 : Nat) : Int) + 1) * max_delta) :=
  C9_chunk_exact_lengths 0 (max_delta + 1) (by simp only [max_delta]; omega) 0 (0, max_delta)
    (by rw [date_ranges_example]; rfl)

theorem str_not_mem_idNoneTuples (s : String) (l : List Cve) :
    PyVal.str s ∉ idNoneTuples l := by
  simp [idNoneTuples]

theorem addMerged_eq_append : ∀ (a b : List Cve), addMerged a b = a ++ b := by
  intro a b
  induction b generalizing a with
  | nil => simp [addMerged]
  | cons o rest ih =>
    simp only [addMerged]
    rw [if_neg (str_not_mem_idNoneTuples o.cve_id a), ih (a ++ [o])]
    simp

/-- C1: the membership test of `CveResultList.add` compares the id string of
each record of `other` against the `(id, None)` tuples that
`get_cve_id_list()` returns, so it is always false and no duplicate is ever
dropped: merging a one-record set with itself yields the id `CVE-1` twice,
contradicting the claimed dedup invariant and the idempotence of the union. -/
theorem C1_add_keeps_duplicates :
    ((CveResultList.add (CveResultList.fromList [cveEx1])
        (CveResultList.fromList [cveEx1])).results.map Cve.cve_id) = ["CVE-1", "CVE-1"] := by
  decide

/-- C2 counterexample: after `add`, the first operand's record sequence has
changed — `merged_results = first.results` aliases the operand's list and the
loop appends to it, so `first` is mutated in place. -/
theorem C2_first_operand_mutated :
    (CveResultList.add_post_first (CveResultList.fromList [cveEx1])
        (CveResultList.fromList [cveEx2])).results.map Cve.cve_id ≠
      (CveResultList.fromList [cveEx1]).results.map Cve.cve_id := by
  decide

/-- C2 (amended): `add` returns a new `CveResultList` wrapper holding all of
`first`'s records followed by all of `other`'s records (the broken dedup test
never fires), and it mutates `first` in place: after the call `first`'s record
sequence equals the merged sequence, while `other` is left unchanged. -/
theorem C2_add_appends_all_amended (first other : CveResultList) :
    CveResultList.add first other = CveResultList.fromList (first.results ++ other.results) ∧
    (CveResultList.add_post_first first other).results = first.results ++ other.results := by
  refine ⟨?_, ?_⟩ <;>
    simp [CveResultList.add, CveResultList.add_post_first, addMerged_eq_append]

/-- C10: every `CveResultList` built through the list branch of `__init__`
(including every result of `add` and the seed and result of the search fold)
leaves the `num_results` attribute unset, so merged result sets never carry an
upstream total-result count. -/
theorem C10_num_results_unset :
    (∀ l : List Cve, (CveResultList.fromList l).num_results = NumResults.unset) ∧
    (∀ a b : CveResultList, (CveResultList.add a b).num_results = NumResults.unset) ∧
    (∀ chunks : List CveResultList, (reduce_add chunks).num_results = NumResults.unset) := by
  refine ⟨fun l => rfl, fun a b => rfl, ?_⟩
  intro chunks
  have go : ∀ (cs : List CveResultList) (acc : CveResultList),
      acc.num_results = NumResults.unset →
      (cs.foldl CveResultList.add acc).num_results = NumResults.unset := by
    intro cs
    induction cs with
    | nil => intro acc h; exact h
    | cons c rest ih => intro acc _; exact ih (CveResultList.add acc c) rfl
  exact go chunks (CveResultList.fromList []) rfl

/-- C4: the claim says the empty Result Set gets the absence sentinel, but the
source guards `get_latest` with `if self.results is not None:` — `results` is
always a list, so the guard passes and `max([])` raises a ValueError on the
empty set. -/
theorem C4_empty_get_latest_value_error :
    CveResultList.get_latest (CveResultList.fromList []) =
      Except.error (PyErr.valueError "max() arg is an empty sequence") := rfl

/-- C3: a response that carries a `message` key makes `search_by_id` evaluate
`data['message'].contains(...)`; Python strings have no method `contains`, so
an AttributeError is raised instead of the claimed API error, even for an
explicit not-found response. -/
theorem C3_message_attribute_error :
    NvdApi.search_by_id "CVE-2020-1234"
      (Json.obj [("message", Json.str "Unable to find vuln CVE-2020-1234"),
                 ("totalResults", Json.num 0)]) =
      Except.error (PyErr.attributeError "str object has no attribute contains") := rfl

theorem flatten_map_nil_list (l : List Cve) :
    (l.map (fun _ => ([] : List String))).flatten = [] := by
  induction l with
  | nil => rfl
  | cons c rest ih => simp [ih]

/-- C8: with `make_urls` set, `get_cve_id_list` returns one `(id, url)` tuple
per record in storage order, the url being the fixed detail prefix followed by
the id; `get_url()` is called with its default `check_is_up=False`, so no HEAD
request is ever issued (the request log is empty) and the URL is returned
unconditionally, whatever the reachability oracle says. -/
theorem C8_get_cve_id_list_urls (l : CveResultList) (head_ok : String → Bool) :
    CveResultList.get_cve_id_list l true head_ok =
      (l.results.map (fun c =>
        PyVal.tuple2 (PyVal.str c.cve_id) (PyVal.str (NvdApi.DETAIL_VIEW_BASE ++ c.cve_id))),
       []) := by
  simp [CveResultList.get_cve_id_list, Cve.get_url, flatten_map_nil_list]

theorem bind_ok_eq {α β : Type} (a : α) (f : α → Except PyErr β) :
    (Except.ok a >>= f) = f a := rfl

theorem bind_error_eq {α β : Type} (e : PyErr) (f : α → Except PyErr β) :
    ((Except.error e : Except PyErr α) >>= f) = Except.error e := rfl

/-- C6 counterexample: an item with valid dates and identifier but an absent
impact key does not parse to severity UNKNOWN — the source indexes
`result_json['impact']` unconditionally, so the parse fails with a KeyError. -/
theorem C6_missing_impact_key_error :
    Cve.result_to_cve itemNoImpact = Except.error (PyErr.keyError "impact") := rfl

/-- C6 (amended): for an item whose impact object is present and empty,
parsing yields severity UNKNOWN; for an item whose impact value is anything
else, the severity is the value read by `impact['baseMetricV2']['severity']`.
An item with an absent impact key instead fails with a KeyError (see the
counterexample). -/
theorem C6_severity_amended (lm pub id : String) (dl dp : DateTime)
    (hlm : strptimeHM lm = Except.ok dl) (hpub : strptimeHM pub = Except.ok dp) :
    Cve.result_to_cve (mkItem lm pub id (Json.obj [])) =
      Except.ok ⟨id, dp, dl, Json.str "UNKNOWN"⟩ ∧
    (∀ impact b sv, impact ≠ Json.obj [] →
      impact.get "baseMetricV2" = Except.ok b → b.get "severity" = Except.ok sv →
      Cve.result_to_cve (mkItem lm pub id impact) = Except.ok ⟨id, dp, dl, sv⟩) := by
  have g1 : ∀ impact, Json.get (mkItem lm pub id impact) "lastModifiedDate"
      = Except.ok (Json.str lm) := fun _ => rfl
  have g2 : ∀ impact, Json.get (mkItem lm pub id impact) "publishedDate"
      = Except.ok (Json.str pub) := fun _ => rfl
  have g3 : ∀ impact, Json.get (mkItem lm pub id impact) "cve"
      = Except.ok (Json.obj [("CVE_data_meta", Json.obj [("ID", Json.str id)])]) := fun _ => rfl
  have g4 : ∀ impact, Json.get (mkItem lm pub id impact) "impact"
      = Except.ok impact := fun _ => rfl
  have g5 : Json.get (Json.obj [("CVE_data_meta", Json.obj [("ID", Json.str id)])]) "CVE_data_meta"
      = Except.ok (Json.obj [("ID", Json.str id)]) := rfl
  have g6 : Json.get (Json.obj [("ID", Json.str id)]) "ID" = Except.ok (Json.str id) := rfl
  constructor
  · simp only [Cve.result_to_cve, g1, g2, g3, g4, g5, g6, bind_ok_eq, strptimeField,
      hlm, hpub, pyStrOfId]
  · intro impact b sv hne hb hsv
    rcases impact with s | n | items | fields
    · simp only [Cve.result_to_cve, g1, g2, g3, g4, g5, g6, bind_ok_eq, strptimeField,
        hlm, hpub, pyStrOfId]
      rw [hb]
      simp only [bind_ok_eq]
      rw [hsv]
      simp only [bind_ok_eq]
    · simp only [Cve.result_to_cve, g1, g2, g3, g4, g5, g6, bind_ok_eq, strptimeField,
        hlm, hpub, pyStrOfId]
      rw [hb]
      simp only [bind_ok_eq]
      rw [hsv]
      simp only [bind_ok_eq]
    · simp only [Cve.result_to_cve, g1, g2, g3, g4, g5, g6, bind_ok_eq, strptimeField,
        hlm, hpub, pyStrOfId]
      rw [hb]
      simp only [bind_ok_eq]
      rw [hsv]
      simp only [bind_ok_eq]
    · cases fields with
      | nil => exact absurd rfl hne
      | cons f fs =>
        simp only [Cve.result_to_cve, g1, g2, g3, g4, g5, g6, bind_ok_eq, strptimeField,
          hlm, hpub, pyStrOfId]
        rw [hb]
        simp only [bind_ok_eq]
        rw [hsv]
        simp only [bind_ok_eq]

theorem C6_severity_amended_witness :
    Cve.result_to_cve (mkItem "2020-01-05T06:07Z" "2020-01-02T03:04Z" "CVE-2020-1"
        (Json.obj [])) =
      Except.ok ⟨"CVE-2020-1", ⟨2020, 1, 2, 3, 4⟩, ⟨2020, 1, 5, 6, 7⟩, Json.str "UNKNOWN"⟩ :=
  (C6_severity_amended "2020-01-05T06:07Z" "2020-01-02T03:04Z" "CVE-2020-1"
    ⟨2020, 1, 5, 6, 7⟩ ⟨2020, 1, 2, 3, 4⟩ rfl rfl).1

theorem sevRankD_of_ok {c : Cve} {v : Int}
    (h : CveResultList._severity_ranking c = Except.ok v) : sevRankD c = v := by
  simp [sevRankD, h]

theorem py_max_go_eq_fold (xs : List Cve) :
    ∀ acc : Cve, (∀ c ∈ acc :: xs, ∃ v, CveResultList._severity_ranking c = Except.ok v) →
      py_max_by_rank_go acc (sevRankD acc) xs = Except.ok (xs.foldl sevStep acc) := by
  induction xs with
  | nil => intro acc _; rfl
  | cons y ys ih =>
    intro acc h
    obtain ⟨ky, hky⟩ := h y (by simp)
    have hky' : sevRankD y = ky := sevRankD_of_ok hky
    simp only [py_max_by_rank_go, hky, List.foldl_cons]
    by_cases hcmp : sevRankD acc < ky
    · rw [if_pos hcmp]
      have hstep : sevStep acc y = y := by
        simp [sevStep, hky', hcmp]
      rw [hstep, ← hky']
      exact ih y (fun c hc => h c (List.mem_cons_of_mem acc hc))
    · rw [if_neg hcmp]
      have hstep : sevStep acc y = acc := by
        simp [sevStep, hky', hcmp]
      rw [hstep]
      exact ih acc (fun c hc => h c (by
        rcases List.mem_cons.mp hc with h1 | h1
        · simp [h1]
        · simp [h1]))

theorem foldl_sevStep_argmax (xs : List Cve) :
    ∀ x : Cve, ∃ pre post, x :: xs = pre ++ (xs.foldl sevStep x) :: post ∧
      (∀ d ∈ x :: xs, sevRankD d ≤ sevRankD (xs.foldl sevStep x)) ∧
      (∀ d ∈ pre, sevRankD d < sevRankD (xs.foldl sevStep x)) := by
  induction xs with
  | nil =>
    intro x
    exact ⟨[], [], rfl, by simp, by simp⟩
  | cons y ys ih =>
    intro x
    rw [List.foldl_cons]
    by_cases hcmp : sevRankD x < sevRankD y
    · have hstep : sevStep x y = y := by simp [sevStep, hcmp]
      rw [hstep]
      obtain ⟨pre, post, heq, hmax, hpre⟩ := ih y
      refine ⟨x :: pre, post, ?_, ?_, ?_⟩
      · rw [List.cons_append, ← heq]
      · intro d hd
        rcases List.mem_cons.mp hd with h1 | h1
        · subst h1
          have hy := hmax y (by simp)
          omega
        · exact hmax d h1
      · intro d hd
        rcases List.mem_cons.mp hd with h1 | h1
        · subst h1
          have hy := hmax y (by simp)
          omega
        · exact hpre d h1
    · have hstep : sevStep x y = x := by simp [sevStep, hcmp]
      rw [hstep]
      obtain ⟨pre, post, heq, hmax, hpre⟩ := ih x
      have hyx : sevRankD y ≤ sevRankD x := le_of_not_lt hcmp
      cases pre with
      | nil =>
        simp only [List.nil_append] at heq
        injection heq with hm hpost
        refine ⟨[], y :: ys, by rw [List.nil_append, ← hm], ?_, by simp⟩
        intro d hd
        rcases List.mem_cons.mp hd with h1 | h1
        · subst h1
          rw [← hm]
        · rcases List.mem_cons.mp h1 with h2 | h2
          · subst h2
            rw [← hm]
            exact hyx
          · exact hmax d (by simp [h2])
      | cons p pre' =>
        rw [List.cons_append] at heq
        injection heq with hp htl
        have hplt : sevRankD p < sevRankD (ys.foldl sevStep x) := hpre p (by simp)
        have hxlt : sevRankD x < sevRankD (ys.foldl sevStep x) := by
          nth_rewrite 1 [hp]
          exact hplt
        refine ⟨x :: y :: pre', post, ?_, ?_, ?_⟩
        · rw [List.cons_append, List.cons_append, ← htl]
        · intro d hd
          rcases List.mem_cons.mp hd with h1 | h1
          · rw [h1]
            exact le_of_lt hxlt
          · rcases List.mem_cons.mp h1 with h2 | h2
            · rw [h2]
              omega
            · exact hmax d (by simp [h2])
        · intro d hd
          rcases List.mem_cons.mp hd with h1 | h1
          · rw [h1]
            exact hxlt
          · rcases List.mem_cons.mp h1 with h2 | h2
            · rw [h2]
              omega
            · exact hpre d (by simp [h2])

/-- C7: on the empty Result Set `get_max_severity` returns the absence
sentinel, and on a non-empty Result Set whose stored severities all rank in
the table (the total order UNKNOWN < LOW < MEDIUM < HIGH < CRITICAL with
ranks -1, 0, 1, 2, 3), it returns the severity label of the record with the
highest rank, ties broken in favour of the first-encountered record (every
record before the returned one ranks strictly lower). -/
theorem C7_get_max_severity_spec (l : CveResultList) :
    (l.results = [] → l.get_max_severity = Except.ok Option.none) ∧
    (l.results ≠ [] →
      (∀ c ∈ l.results, ∃ v, CveResultList._severity_ranking c = Except.ok v) →
      ∃ c pre post,
        l.results = pre ++ c :: post ∧
        l.get_max_severity = Except.ok (some c.severity) ∧
        (∀ d ∈ l.results, sevRankD d ≤ sevRankD c) ∧
        (∀ d ∈ pre, sevRankD d < sevRankD c)) := by
  constructor
  · intro h
    simp [CveResultList.get_max_severity, h]
  · intro hne hok
    obtain ⟨x, xs, hxs⟩ := List.exists_cons_of_ne_nil hne
    obtain ⟨kx, hkx⟩ := hok x (by rw [hxs]; simp)
    have hmax : py_max_by_rank l.results = Except.ok (xs.foldl sevStep x) := by
      rw [hxs]
      simp only [py_max_by_rank, hkx]
      rw [← sevRankD_of_ok hkx]
      exact py_max_go_eq_fold xs x (fun c hc => hok c (by rw [hxs]; exact hc))
    obtain ⟨pre, post, heq, hbound, hpre⟩ := foldl_sevStep_argmax xs x
    have hemp : l.results.isEmpty = false := by rw [hxs]; rfl
    refine ⟨xs.foldl sevStep x, pre, post, ?_, ?_, ?_, hpre⟩
    · rw [hxs, heq]
    · simp [CveResultList.get_max_severity, hemp, hmax, Except.map]
    · intro d hd
      exact hbound d (by rw [hxs] at hd; exact hd)

theorem C7_get_max_severity_spec_witness :
    ∃ c pre post,
      (CveResultList.fromList [cveHigh, cveCrit, cveLow]).results = pre ++ c :: post ∧
      (CveResultList.fromList [cveHigh, cveCrit, cveLow]).get_max_severity =
        Except.ok (some c.severity) ∧
      (∀ d ∈ (CveResultList.fromList [cveHigh, cveCrit, cveLow]).results,
        sevRankD d ≤ sevRankD c) ∧
      (∀ d ∈ pre, sevRankD d < sevRankD c) :=
  (C7_get_max_severity_spec (CveResultList.fromList [cveHigh, cveCrit, cveLow])).2
    (by simp [CveResultList.fromList])
    (by
      intro c hc
      simp only [CveResultList.fromList] at hc
      rcases List.mem_cons.mp hc with h1 | h1
      · exact ⟨2, by rw [h1]; rfl⟩
      · rcases List.mem_cons.mp h1 with h2 | h2
        · exact ⟨3, by rw [h2]; rfl⟩
        · rcases List.mem_cons.mp h2 with h3 | h3
          · exact ⟨0, by rw [h3]; rfl⟩
          · simp at h3)
